import Mathlib

/-!
Verification development for the adaptive preference-elicitation engine of
`Decisive decision app.py` (class `BayesianUBC_Engine` and its collaborators).

The Python code is shallowly embedded: Python `float` values are modelled as
exact rationals (`ℚ`), Python `dict`s as association lists with unique keys in
insertion order, and the external collaborators (the R design oracle, the
user's console answers, and the PyMC sampler) as explicit per-turn inputs.
-/

namespace DecisiveApp

/-- One utility belief, the value of `self.utilities[crit][lvl]` in the source:
a dict with keys `mean` and `variance`. -/
structure Util where
  mean : ℚ
  variance : ℚ
  deriving DecidableEq, Repr

/-- The dict `self.utilities` / `UserProfileHBM.data`: criterion name to level name to belief. -/
abbrev UtilTable := List (String × List (String × Util))

/-- A profile: dict criterion name to level name. -/
abbrev Profile := List (String × String)

/-- The dict `self.criteria_levels`: criterion name to its ordered list of level names. -/
abbrev Config := List (String × List String)

/-- Dict lookup on a level table (first matching key, as in a Python dict with
unique keys). -/
def lookupLevel : List (String × Util) → String → Option Util
  | [], _ => none
  | (l, u) :: rest, lvl => if l = lvl then some u else lookupLevel rest lvl

/-- Lookup of `self.utilities[crit][lvl]` guarded by the `in` checks of the source:
`none` when the criterion or the level is missing. -/
def lookupUtil (utils : UtilTable) (crit lvl : String) : Option Util :=
  match utils with
  | [] => none
  | (c, tbl) :: rest => if c = crit then lookupLevel tbl lvl else lookupUtil rest crit lvl

/-- Apply `f` to the belief stored at level `lvl` of a level table, leaving the
table unchanged when the level is absent (mirrors the guarded in-place dict
mutation of the source). -/
def setLevel : List (String × Util) → String → (Util → Util) → List (String × Util)
  | [], _, _ => []
  | q :: rest, lvl, f => (if q.1 = lvl then (q.1, f q.2) else q) :: setLevel rest lvl f

/-- Apply `f` to the belief at `(crit, lvl)`, a no-op when the cell is absent
(the source guards each mutation with `crit in self.utilities and lvl in
self.utilities[crit]`). -/
def setUtil : UtilTable → String → String → (Util → Util) → UtilTable
  | [], _, _, _ => []
  | p :: rest, crit, lvl, f =>
    (if p.1 = crit then (p.1, setLevel p.2 lvl f) else p) :: setUtil rest crit lvl f

/-- Dict lookup on a profile. -/
def profileLookup : Profile → String → Option String
  | [], _ => none
  | (k, v) :: rest, key => if k = key then some v else profileLookup rest key

/-- From `_update_utilities_simplified`, the chosen-profile pass on one cell:
`mean += 0.2; variance *= 0.9; variance = max(0.01, variance)`.
Note the source applies no clamp to the mean here. -/
def chosenNudge (u : Util) : Util :=
  { mean := u.mean + 0.2, variance := max 0.01 (u.variance * 0.9) }

/-- From `_update_utilities_simplified`, the rejected-profile pass on one cell:
`mean -= 0.1; variance *= 0.95; variance = max(0.01, variance)`.
No clamp on the mean here either. -/
def rejectedNudge (u : Util) : Util :=
  { mean := u.mean - 0.1, variance := max 0.01 (u.variance * 0.95) }

/-- First loop of `_update_utilities_simplified`: every `(crit, lvl)` of the
chosen profile receives `chosenNudge` (when present in the store). -/
def applyChosenPass : UtilTable → Profile → UtilTable
  | utils, [] => utils
  | utils, (c, l) :: rest => applyChosenPass (setUtil utils c l chosenNudge) rest

/-- One item of the second loop of `_update_utilities_simplified`: a
`(crit, lvl)` of the rejected profile receives `rejectedNudge` only when
`crit in chosen and chosen.get(crit) != lvl`. -/
def rejectedStep (chosen : Profile) (utils : UtilTable) (c l : String) : UtilTable :=
  match profileLookup chosen c with
  | some x => if x ≠ l then setUtil utils c l rejectedNudge else utils
  | none => utils

/-- Second loop of `_update_utilities_simplified` over the rejected profile. -/
def applyRejectedPass (chosen : Profile) : UtilTable → Profile → UtilTable
  | utils, [] => utils
  | utils, (c, l) :: rest => applyRejectedPass chosen (rejectedStep chosen utils c l) rest

/-- The method `BayesianUBC_Engine._update_utilities_simplified(chosen, unchosen)`. -/
def updateUtilitiesSimplified (utils : UtilTable) (chosen unchosen : Profile) : UtilTable :=
  applyRejectedPass chosen (applyChosenPass utils chosen) unchosen

/-- From `_update_utilities_from_counterfactual`, the nudge of the improved level:
switched: `mean = min(2.0, mean + 0.5); variance = max(0.01, variance * 0.6)`;
not switched: `mean = max(-2.0, mean - 0.2); variance = max(0.01, variance * 0.7)`. -/
def cfImprovedNudge (userSwitched : Bool) (u : Util) : Util :=
  if userSwitched then
    { mean := min 2 (u.mean + 0.5), variance := max 0.01 (u.variance * 0.6) }
  else
    { mean := max (-2) (u.mean - 0.2), variance := max 0.01 (u.variance * 0.7) }

/-- From `_update_utilities_from_counterfactual`, the nudge of the original level:
switched: `mean = max(-2.0, mean - 0.3); variance = max(0.01, variance * 0.8)`;
not switched: `mean = max(-2.0, mean - 0.1)` with the variance untouched. -/
def cfOriginalNudge (userSwitched : Bool) (u : Util) : Util :=
  if userSwitched then
    { mean := max (-2) (u.mean - 0.3), variance := max 0.01 (u.variance * 0.8) }
  else
    { mean := max (-2) (u.mean - 0.1), variance := u.variance }

/-- The final loop of `_update_utilities_from_counterfactual`: every belief in
the store gets `mean = max(-2.0, min(2.0, mean))` and
`variance = max(0.01, variance)`. -/
def reclampAll (utils : UtilTable) : UtilTable :=
  utils.map fun p =>
    (p.1, p.2.map fun q => (q.1, { mean := max (-2) (min 2 q.2.mean),
                                   variance := max 0.01 q.2.variance }))

/-- The method `BayesianUBC_Engine._update_utilities_from_counterfactual`: guard on the
presence of both levels, then the two nudges in source order (improved level
first, original level second), then the global re-clamp. -/
def updateUtilitiesFromCounterfactual (utils : UtilTable)
    (criterionChanged origLevel improvedLevel : String) (userSwitched : Bool) : UtilTable :=
  if (lookupUtil utils criterionChanged origLevel).isNone ∨
     (lookupUtil utils criterionChanged improvedLevel).isNone then utils
  else
    let step1 := setUtil utils criterionChanged improvedLevel (cfImprovedNudge userSwitched)
    let step2 := setUtil step1 criterionChanged origLevel (cfOriginalNudge userSwitched)
    reclampAll step2

/-- The spec's belief invariant on the means: every mean lies in `[-2, 2]`. -/
def meanInvariant (utils : UtilTable) : Prop :=
  ∀ p ∈ utils, ∀ q ∈ p.2, (-2 : ℚ) ≤ q.2.mean ∧ q.2.mean ≤ 2

/-- The spec's belief invariant on the variances: every variance is `≥ 0.01`. -/
def varInvariant (utils : UtilTable) : Prop :=
  ∀ p ∈ utils, ∀ q ∈ p.2, (0.01 : ℚ) ≤ q.2.variance

instance (utils : UtilTable) : Decidable (meanInvariant utils) := by
  unfold meanInvariant; infer_instance

instance (utils : UtilTable) : Decidable (varInvariant utils) := by
  unfold varInvariant; infer_instance

/-- Lines 767-779 of the source, the initial transition table for the
counterfactual alternative-level index: `0 → 1`, `1 → 2`, `2 → 1`, and `-1`
("unset") for any other original index. -/
def cfTransitionInit (original : Int) : Int :=
  if original = 0 then 1 else if original = 1 then 2 else if original = 2 then 1 else -1

/-- Lines 767-779 of the source, the full alternative-level-index computation
of `_ask_and_process_counterfactual`: the table value when it is in range and
distinct from the original, otherwise the first index different from the
original; `none` when the final candidate still equals the original (the
"Cannot find a distinct alternative level" skip). -/
def cfImprovedCore (numLevels : Nat) (original : Int) : Option Int :=
  let imp := cfTransitionInit original
  if ¬(0 ≤ imp ∧ imp < (numLevels : Int)) ∨ imp = original then
    let imp2 : Int :=
      match (List.range numLevels).find? (fun i => (i : Int) != original) with
      | some i => (i : Int)
      | none => imp
    if imp2 = original then none else some imp2
  else some imp

/-- From `_check_convergence`, the list comprehension collecting every belief of the
store (criteria with an empty level table contribute nothing). -/
def allLevelData (utils : UtilTable) : List Util :=
  utils.flatMap fun p => p.2.map (·.2)

/-- The method `BayesianUBC_Engine._check_convergence`: `False` on an empty store,
otherwise `avg_variance < 1.0` where `avg_variance` is the arithmetic mean of
the variances of all beliefs. -/
def checkConvergence (utils : UtilTable) : Bool :=
  let allData := allLevelData utils
  if allData.isEmpty then false
  else if ((allData.map (·.variance)).sum / allData.length : ℚ) < 1 then true else false

/-- The arithmetic mean of variance across all known beliefs, as the spec
words it (stated independently of `checkConvergence` for comparison). -/
def avgVariance (utils : UtilTable) : ℚ :=
  ((allLevelData utils).map (·.variance)).sum / (allLevelData utils).length

/-- The array `BayesianUBC_Engine.L9_PROFILES`: the fixed 9-row orthogonal array over
3 factors × 3 levels. -/
def L9_PROFILES : List (List Nat) :=
  [[0,0,0], [0,1,1], [0,2,2], [1,0,1], [1,1,2], [1,2,0], [2,0,2], [2,1,0], [2,2,1]]

/-- The list `BayesianUBC_Engine.ORTHOGONAL_PAIRS_INDICES`: the 9 predefined row-index
pairs into `L9_PROFILES`. -/
def ORTHOGONAL_PAIRS_INDICES : List (Nat × Nat) :=
  [(0,4), (1,5), (2,6), (3,8), (0,7), (1,3), (2,5), (4,8), (6,0)]

/-- The constant `MAX_ORTHOGONAL_FALLBACK_TOTAL = len(ORTHOGONAL_PAIRS_INDICES)`. -/
def MAX_ORTHOGONAL_FALLBACK_TOTAL : Nat := ORTHOGONAL_PAIRS_INDICES.length

/-- The loop of `_get_python_orthogonal_pair` over the criteria: each criterion
must have exactly 3 levels, and the two profiles pick the levels at the indices
of the two chosen `L9_PROFILES` rows. -/
def buildOrthogonalProfiles : Config → List Nat → List Nat → Option (Profile × Profile)
  | [], _, _ => some ([], [])
  | (crit, levels) :: rest, ai :: ais, bi :: bis =>
    if levels.length ≠ 3 then none
    else
      match levels[ai]?, levels[bi]?, buildOrthogonalProfiles rest ais bis with
      | some la, some lb, some (pa, pb) => some ((crit, la) :: pa, (crit, lb) :: pb)
      | _, _, _ => none
  | _ :: _, _, _ => none

/-- The method `BayesianUBC_Engine._get_python_orthogonal_pair` as a function of the
configuration and the current `orthogonal_fallback_pair_idx_counter`. Returns
`none` where the source returns `(None, None)` (configuration not 3×3); the
counter increment on success is handled by the callers. -/
def getPythonOrthogonalPair (criteriaLevels : Config) (counter : Nat) : Option (Profile × Profile) :=
  if criteriaLevels.length ≠ 3 then none
  else
    match ORTHOGONAL_PAIRS_INDICES[counter % MAX_ORTHOGONAL_FALLBACK_TOTAL]? with
    | none => none
    | some pd =>
      match L9_PROFILES[pd.1]?, L9_PROFILES[pd.2]? with
      | some aIdx, some bIdx => buildOrthogonalProfiles criteriaLevels aIdx bIdx
      | _, _ => none

/-- The method `BayesianUBC_Engine._find_most_uncertain_level(profile_to_consider)`:
collect `(variance, crit, level, idx)` for every criterion of the store whose
level on the profile is defined and has belief data; if none, fall back to
the first key of the profile (index looked up, `(None, None, -1)` on failure);
otherwise stable-sort by variance descending and return the top entry. -/
def findMostUncertainLevel (utils : UtilTable) (criteriaLevels : Config)
    (profileToConsider : Profile) : Option (String × String × Int) :=
  let uncertainLevels : List (ℚ × String × String × Int) :=
    utils.flatMap fun p =>
      match profileLookup profileToConsider p.1 with
      | none => []
      | some actualLevel =>
        let critDefinedLevels := match (criteriaLevels.find? (·.1 == p.1)) with
          | some cl => cl.2
          | none => []
        match critDefinedLevels.findIdx? (· == actualLevel) with
        | none => []
        | some idx =>
          match lookupLevel p.2 actualLevel with
          | none => []
          | some u => [(u.variance, p.1, actualLevel, (idx : Int))]
  match uncertainLevels with
  | [] =>
    match profileToConsider with
    | [] => none
    | (crit, lvl) :: _ =>
      let defined := match criteriaLevels.find? (·.1 == crit) with
        | some cl => cl.2
        | none => []
      match defined.findIdx? (· == lvl) with
      | some idx => some (crit, lvl, (idx : Int))
      | none => none
  | _ :: _ =>
    match uncertainLevels.mergeSort (fun a b => decide (b.1 ≤ a.1)) with
    | top :: _ => some top.2
    | [] => none

/-- Lines 747-760 of `_ask_and_process_counterfactual`: the target returned by
`_find_most_uncertain_level`, or (when that returned no criterion) the caller's
own first-key fallback on the rejected profile; `none` means the step is
skipped. -/
def cfTarget (utils : UtilTable) (criteriaLevels : Config)
    (rejectedProfile : Profile) : Option (String × String × Int) :=
  match findMostUncertainLevel utils criteriaLevels rejectedProfile with
  | some t => some t
  | none =>
    match rejectedProfile with
    | [] => none
    | (crit, lvl) :: _ =>
      let defined := match criteriaLevels.find? (·.1 == crit) with
        | some cl => cl.2
        | none => []
      match defined.findIdx? (· == lvl) with
      | some idx => some (crit, lvl, (idx : Int))
      | none => none

/-- Python dict assignment `profile[key] = value` on a copied profile: replace
the value when the key exists, append otherwise. -/
def profileSet (p : Profile) (key value : String) : Profile :=
  if p.any (·.1 == key) then p.map (fun kv => if kv.1 = key then (kv.1, value) else kv)
  else p ++ [(key, value)]

/-- Python dict equality (`modified_rejected_profile == chosen_profile_main`):
key-order-insensitive equality of key-value maps. -/
def profileEquiv (p q : Profile) : Bool :=
  p.all (fun kv => profileLookup q kv.1 == some kv.2) &&
  q.all (fun kv => profileLookup p kv.1 == some kv.2)

/-- The method `BayesianUBC_Engine._ask_and_process_counterfactual` as a transformation of
the belief store (console output elided; the user's counterfactual answer is
the input `userSwitched`). Every `return`-without-update of the source becomes
the unchanged store. -/
def askAndProcessCounterfactual (utils : UtilTable) (criteriaLevels : Config)
    (chosenProfileMain rejectedProfileMain : Profile) (userSwitched : Bool) : UtilTable :=
  match cfTarget utils criteriaLevels rejectedProfileMain with
  | none => utils
  | some (targetCriterion, targetLevelOriginalRejected, originalLevelIdx) =>
    let levelsForCriterion := match criteriaLevels.find? (·.1 == targetCriterion) with
      | some cl => cl.2
      | none => []
    if levelsForCriterion.length ≠ 3 then utils
    else
      match cfImprovedCore levelsForCriterion.length originalLevelIdx with
      | none => utils
      | some improvedLevelIdx =>
        match levelsForCriterion[improvedLevelIdx.toNat]? with
        | none => utils
        | some improvedLevel =>
          let modifiedRejectedProfile := profileSet rejectedProfileMain targetCriterion improvedLevel
          if profileEquiv modifiedRejectedProfile chosenProfileMain then utils
          else
            updateUtilitiesFromCounterfactual utils targetCriterion
              targetLevelOriginalRejected improvedLevel userSwitched

/-- The strategy strings of the source: `"PYTHON_ORTHOGONAL_CF"`,
`"CEA_BLOCK_CF"`, `"MODFED_DIRECT"`, `"MODFED_ADAPTIVE"`. -/
inductive Strategy
  | pythonOrthogonalCF
  | ceaBlockCF
  | modfedDirect
  | modfedAdaptive
  deriving DecidableEq, Repr

/-- The mutable fields of `BayesianUBC_Engine` used by
`run_elicitation_session`. -/
structure EngineState where
  criteriaLevels : Config
  utilities : UtilTable
  initialStrategy : Strategy
  initialBlockSizeCea : Nat
  maxPythonOrthoCFQuestions : Nat
  initialQuestionsDone : Nat
  ceaBlockCache : List (Profile × Profile)
  ceaBlockCacheIdx : Nat
  orthoCounter : Nat
  questionCount : Nat
  rIdefixConsecutiveFailures : Nat
  sessionHistory : List (Profile × Profile × Nat)
  deriving Repr

/-- The environment's contribution to one loop iteration: the R oracle's
answer to a block request (`none` = transport/script/shape failure, and an
empty list is also treated as failure by `not r_data`), the oracle's answer to
a single Modfed request (`none` = failure; on success either profile key may
still be missing), and the user's two console answers. -/
structure TurnInput where
  blockResult : Option (List (Profile × Profile))
  singleResult : Option (Option Profile × Option Profile)
  mainChoiceIsA : Bool
  cfSwitched : Bool
  deriving Repr

/-- Observable events of one loop iteration. `halted` means the iteration ends
the session (`break`); `haltedNoQuestion` is the sub-case "could not generate
a valid question" (otherwise the halt came from `_check_convergence`). -/
structure StepOut where
  issuedBlockRequest : Bool
  issuedSingleRequest : Bool
  warned : Bool
  usedOrthoFallbackAdaptive : Bool
  halted : Bool
  haltedNoQuestion : Bool
  deriving DecidableEq, Repr

/-- Lines 608-612 of the source: the phase used for the current question, a
pure function of the engine state. -/
def currentPhase (s : EngineState) : Strategy :=
  if s.initialStrategy = .pythonOrthogonalCF ∧ s.maxPythonOrthoCFQuestions ≤ s.initialQuestionsDone then
    .modfedAdaptive
  else if s.initialStrategy = .ceaBlockCF ∧ s.initialBlockSizeCea ≤ s.initialQuestionsDone then
    .modfedAdaptive
  else s.initialStrategy

/-- Result of the question-generation part of one iteration, before the user
is asked. -/
structure BranchResult where
  state : EngineState
  profileA : Option Profile
  profileB : Option Profile
  performCF : Bool
  issuedBlockRequest : Bool
  issuedSingleRequest : Bool
  warned : Bool
  usedOrthoFallbackAdaptive : Bool

/-- The `PYTHON_ORTHOGONAL_CF` branch (lines 616-621): orthogonal pair (the
counter advances only on success, as in `_get_python_orthogonal_pair`),
counterfactual scheduled, kickstart counter incremented. -/
def stepOrthoBranch (s0 : EngineState) : BranchResult :=
  let pairRes := getPythonOrthogonalPair s0.criteriaLevels s0.orthoCounter
  let s1 := if pairRes.isSome then { s0 with orthoCounter := s0.orthoCounter + 1 } else s0
  let s2 := { s1 with initialQuestionsDone := s1.initialQuestionsDone + 1 }
  { state := s2, profileA := pairRes.map (·.1), profileB := pairRes.map (·.2),
    performCF := true, issuedBlockRequest := false, issuedSingleRequest := false,
    warned := false, usedOrthoFallbackAdaptive := false }

/-- The failure arm of the block fetch (lines 629-634): one orthogonal call
(whose pair is immediately overwritten by the cache check that follows, since
the cache is still empty or exhausted — only the counter advance survives),
then the permanent downgrade `initial_strategy = "PYTHON_ORTHOGONAL_CF"`,
`MAX_PYTHON_ORTHO_CF_QUESTIONS = initial_questions_done + 1`,
`initial_questions_done = 0`. -/
def ceaFailurePath (s0 : EngineState) : EngineState :=
  let s1 := if (getPythonOrthogonalPair s0.criteriaLevels s0.orthoCounter).isSome then
      { s0 with orthoCounter := s0.orthoCounter + 1 } else s0
  { s1 with initialStrategy := .pythonOrthogonalCF,
            maxPythonOrthoCFQuestions := s1.initialQuestionsDone + 1,
            initialQuestionsDone := 0 }

/-- The `CEA_BLOCK_CF` branch (lines 623-650): refetch the block when the cache
is empty or exhausted; failure triggers `ceaFailurePath`; then serve from the
cache if possible, else fall back to an orthogonal pair; finally increment the
kickstart counter. -/
def stepCeaBranch (s0 : EngineState) (i : TurnInput) : BranchResult :=
  let needFetch := s0.ceaBlockCache.isEmpty || s0.ceaBlockCache.length ≤ s0.ceaBlockCacheIdx
  let s1 :=
    if needFetch then
      match i.blockResult with
      | some rData =>
        if rData.isEmpty then ceaFailurePath s0
        else { s0 with ceaBlockCache := rData, ceaBlockCacheIdx := 0 }
      | none => ceaFailurePath s0
    else s0
  let served : EngineState × Option Profile × Option Profile :=
    if ¬s1.ceaBlockCache.isEmpty ∧ s1.ceaBlockCacheIdx < s1.ceaBlockCache.length then
      match s1.ceaBlockCache[s1.ceaBlockCacheIdx]? with
      | some pr => ({ s1 with ceaBlockCacheIdx := s1.ceaBlockCacheIdx + 1 }, some pr.1, some pr.2)
      | none => (s1, none, none)
    else
      let pairRes := getPythonOrthogonalPair s1.criteriaLevels s1.orthoCounter
      let s2 := if pairRes.isSome then { s1 with orthoCounter := s1.orthoCounter + 1 } else s1
      (s2, pairRes.map (·.1), pairRes.map (·.2))
  let s3 := { served.1 with initialQuestionsDone := served.1.initialQuestionsDone + 1 }
  { state := s3, profileA := served.2.1, profileB := served.2.2, performCF := true,
    issuedBlockRequest := needFetch, issuedSingleRequest := false, warned := false,
    usedOrthoFallbackAdaptive := false }

/-- The `MODFED_DIRECT` / `MODFED_ADAPTIVE` branch (lines 652-672): optional
kickstart-counter increment, a single-mode oracle request, orthogonal fallback
with failure counting and the `>= 3` escalation warning on failure (the
warning is skipped when even the fallback produced no pair, because the source
breaks first), counter reset on success. -/
def stepModfedBranch (s0 : EngineState) (phase : Strategy) (i : TurnInput) : BranchResult :=
  let s1 :=
    if phase = .modfedDirect ∨ (s0.initialStrategy ≠ .modfedDirect ∧ phase = .modfedAdaptive) then
      { s0 with initialQuestionsDone := s0.initialQuestionsDone + 1 }
    else s0
  match i.singleResult with
  | none =>
    let pairRes := getPythonOrthogonalPair s1.criteriaLevels s1.orthoCounter
    let s2 := if pairRes.isSome then { s1 with orthoCounter := s1.orthoCounter + 1 } else s1
    let s3 := { s2 with rIdefixConsecutiveFailures := s2.rIdefixConsecutiveFailures + 1 }
    { state := s3, profileA := pairRes.map (·.1), profileB := pairRes.map (·.2),
      performCF := false, issuedBlockRequest := false, issuedSingleRequest := true,
      warned := pairRes.isSome && decide (3 ≤ s3.rIdefixConsecutiveFailures),
      usedOrthoFallbackAdaptive := true }
  | some (pa, pb) =>
    { state := { s1 with rIdefixConsecutiveFailures := 0 }, profileA := pa, profileB := pb,
      performCF := false, issuedBlockRequest := false, issuedSingleRequest := true,
      warned := false, usedOrthoFallbackAdaptive := false }

/-- Lines 674-704: break when either profile is missing; otherwise record the
answer, run the heuristic update, optionally the counterfactual step, and
break when `_check_convergence` fires. -/
def finishTurn (br : BranchResult) (i : TurnInput) : EngineState × StepOut :=
  match br.profileA, br.profileB with
  | some pa, some pb =>
    let chosenIdxMain : Nat := if i.mainChoiceIsA then 0 else 1
    let chosenProfileMain := if i.mainChoiceIsA then pa else pb
    let rejectedProfileMain := if i.mainChoiceIsA then pb else pa
    let s1 := { br.state with
                sessionHistory := br.state.sessionHistory ++ [(pa, pb, chosenIdxMain)] }
    let utils1 := updateUtilitiesSimplified s1.utilities chosenProfileMain rejectedProfileMain
    let utils2 :=
      if br.performCF then
        askAndProcessCounterfactual utils1 s1.criteriaLevels chosenProfileMain
          rejectedProfileMain i.cfSwitched
      else utils1
    let s2 := { s1 with utilities := utils2 }
    (s2, { issuedBlockRequest := br.issuedBlockRequest,
           issuedSingleRequest := br.issuedSingleRequest, warned := br.warned,
           usedOrthoFallbackAdaptive := br.usedOrthoFallbackAdaptive,
           halted := checkConvergence utils2, haltedNoQuestion := false })
  | _, _ =>
    (br.state, { issuedBlockRequest := br.issuedBlockRequest,
                 issuedSingleRequest := br.issuedSingleRequest, warned := br.warned,
                 usedOrthoFallbackAdaptive := br.usedOrthoFallbackAdaptive,
                 halted := true, haltedNoQuestion := true })

/-- One full iteration of the `for _ in range(max_questions)` loop of
`run_elicitation_session`, driven by the environment input `i`. -/
def sessionStep (s0 : EngineState) (i : TurnInput) : EngineState × StepOut :=
  let s := { s0 with questionCount := s0.questionCount + 1 }
  match currentPhase s with
  | .pythonOrthogonalCF => finishTurn (stepOrthoBranch s) i
  | .ceaBlockCF => finishTurn (stepCeaBranch s i) i
  | phase => finishTurn (stepModfedBranch s phase i) i

/-- Iterate `sessionStep` over a list of per-turn environment inputs, stopping
at the first halting step (the caller bounds the list by `max_questions = 8`).
Returns the final state and the per-turn outputs. -/
def runSession : EngineState → List TurnInput → EngineState × List StepOut
  | s, [] => (s, [])
  | s, i :: rest =>
    let step := sessionStep s i
    if step.2.halted then (step.1, [step.2])
    else
      let next := runSession step.1 rest
      (next.1, step.2 :: next.2)

/-- Number of block-mode oracle requests issued over a run. -/
def blockRequestCount (outs : List StepOut) : Nat :=
  (outs.filter (·.issuedBlockRequest)).length

/-- Number of escalation warnings emitted over a run. -/
def warnCount (outs : List StepOut) : Nat :=
  (outs.filter (·.warned)).length

/-- Python's `param_name.split('_', 1)`, splitting a character list at the
first underscore: one part when there is no underscore, otherwise the part
before it and everything after it. -/
def splitFirstUnderscoreAux : List Char → List Char → List (List Char)
  | acc, [] => [acc.reverse]
  | acc, c :: rest => if c = '_' then [acc.reverse, rest] else splitFirstUnderscoreAux (c :: acc) rest

/-- Python `s.split('_', 1)` on a string. -/
def splitFirstUnderscore (s : String) : List String :=
  (splitFirstUnderscoreAux [] s.data).map fun cs => String.mk cs

/-- The method `UserProfileHBM.get_level_prior`: the stored `(mean_utility, variance)`,
defaulting to `(0.0, 10.0)` when the criterion or the level is missing (an
empty criterion entry is falsy and also yields the default). -/
def getLevelPrior (profileData : UtilTable) (criterion level : String) : ℚ × ℚ :=
  match lookupUtil profileData criterion level with
  | some u => (u.mean, u.variance)
  | none => (0, 10)

/-- Lines 223-229 of `run_mcmc_model_in_background`: one parameter
`f"{crit}_{level}"` for every non-reference level of every criterion with at
least 2 levels. -/
def buildParamNames (criteriaWithLevels : Config) : List String :=
  criteriaWithLevels.flatMap fun cl =>
    if cl.2.length < 2 then []
    else (cl.2.drop 1).map fun level => cl.1 ++ "_" ++ level

/-- Dict write `tbl[level] = u`. -/
def levelEntrySet (tbl : List (String × Util)) (level : String) (u : Util) : List (String × Util) :=
  if tbl.any (·.1 == level) then tbl.map fun q => if q.1 = level then (q.1, u) else q
  else tbl ++ [(level, u)]

/-- Python `if criterion not in self.data: self.data[criterion] = {}` followed by
`self.data[criterion][level] = u`. -/
def profileEntrySet (data : UtilTable) (criterion level : String) (u : Util) : UtilTable :=
  if data.any (·.1 == criterion) then
    data.map fun p => if p.1 = criterion then (p.1, levelEntrySet p.2 level u) else p
  else data ++ [(criterion, [(level, u)])]

/-- The method `UserProfileHBM.update_profile_with_posteriors`: each posterior entry
`(param_name, mean, sd)` is split at the first underscore; two-part names are
written back as `{'mean_utility': mean, 'variance': sd**2}`, one-part names
only produce a warning. -/
def updateProfileWithPosteriors (data : UtilTable) (posteriors : List (String × ℚ × ℚ)) : UtilTable :=
  posteriors.foldl
    (fun acc entry =>
      match splitFirstUnderscore entry.1 with
      | [criterion, level] => profileEntrySet acc criterion level ⟨entry.2.1, entry.2.2 * entry.2.2⟩
      | _ => acc)
    data

/-- Lines 254-258 of `run_mcmc_model_in_background`: the normal prior for one
parameter is seeded from `get_level_prior` applied to the two halves of
`p_name.split('_', 1)` (well-formed parameter names always contain an
underscore, so the one-part branch is unreachable and modelled by the
default prior). -/
def mcmcPriorForParam (userProfileData : UtilTable) (paramName : String) : ℚ × ℚ :=
  match splitFirstUnderscore paramName with
  | [critForPrior, levelForPrior] => getLevelPrior userProfileData critForPrior levelForPrior
  | _ => (0, 10)

/-- The function `run_mcmc_model_in_background` viewed as a function of the
user profile: the PyMC availability check and the sampler are the external
inference collaborator, modelled by
`pymcAvailable` and `samplingOutcome` (`none` = sampling raised). Every early
`return` leaves the profile untouched; only the success path rewrites it. -/
def runMcmcModelInBackground (pymcAvailable : Bool)
    (samplingOutcome : Option (List (String × ℚ × ℚ)))
    (userProfileData : UtilTable) (sessionHistory : List (Profile × Profile × Nat))
    (criteriaWithLevels : Config) : UtilTable :=
  if ¬pymcAvailable then userProfileData
  else if buildParamNames criteriaWithLevels = [] then userProfileData
  else
    match samplingOutcome with
    | none => userProfileData
    | some posteriors => updateProfileWithPosteriors userProfileData posteriors

/-! ### Concrete instances used by the theorems below -/

/-- The spec's running example configuration: 3 criteria with 3 levels each. -/
def exampleConfig : Config :=
  [("Price", ["low", "mid", "high"]),
   ("Speed", ["slow", "medium", "fast"]),
   ("Support", ["basic", "standard", "premium"])]

/-- A store whose single belief sits exactly at the mean cap `2.0` (e.g. as
left there by the counterfactual update's `min(2.0, ...)` cap) with a
legitimate variance. -/
def capMeanUtils : UtilTable := [("Price", [("low", ⟨2, 1/2⟩)])]

/-- A one-belief store for the shared-level update. -/
def sharedLevelUtils : UtilTable := [("Price", [("low", ⟨0, 1⟩)])]

/-- A chosen profile and a rejected profile that carry the same level on their
only criterion. -/
def sharedProfile : Profile := [("Price", "low")]

/-- A two-belief store with every variance at `0.01` or more, used to
instantiate the invariant-preservation theorem. -/
def diffuseUtils : UtilTable := [("Price", [("low", ⟨0, 10⟩), ("mid", ⟨0, 10⟩)])]

/-- All beliefs at variance `0.5`: mean variance `0.5 < 1`. -/
def allHalfVarTable : UtilTable :=
  [("Price", [("low", ⟨0, 1/2⟩), ("mid", ⟨0, 1/2⟩)]),
   ("Speed", [("slow", ⟨0, 1/2⟩)])]

/-- One variance of `5` among otherwise-low values: mean variance
`(5 + 0.1 + 0.1)/3 = 26/15 ≥ 1`. -/
def spikeVarTable : UtilTable :=
  [("Price", [("low", ⟨0, 5⟩), ("mid", ⟨0, 1/10⟩), ("high", ⟨0, 1/10⟩)])]

/-- A store in which every criterion maps to an empty level table. -/
def emptyLevelStore : UtilTable := [("Price", []), ("Speed", []), ("Support", [])]

/-- The belief store of a session started from default profile priors:
every level at mean `0`, variance `10`. -/
def tenPriorUtils : UtilTable :=
  [("Price", [("low", ⟨0, 10⟩), ("mid", ⟨0, 10⟩), ("high", ⟨0, 10⟩)]),
   ("Speed", [("slow", ⟨0, 10⟩), ("medium", ⟨0, 10⟩), ("fast", ⟨0, 10⟩)]),
   ("Support", [("basic", ⟨0, 10⟩), ("standard", ⟨0, 10⟩), ("premium", ⟨0, 10⟩)])]

/-- An engine state in the adaptive phase: an orthogonal kickstart of 3
questions has been used up (`initial_questions_done = 3 ≥ 3`), no oracle
failures yet. -/
def adaptState : EngineState :=
  { criteriaLevels := exampleConfig, utilities := tenPriorUtils,
    initialStrategy := .pythonOrthogonalCF, initialBlockSizeCea := 0,
    maxPythonOrthoCFQuestions := 3, initialQuestionsDone := 3,
    ceaBlockCache := [], ceaBlockCacheIdx := 0, orthoCounter := 3,
    questionCount := 3, rIdefixConsecutiveFailures := 0, sessionHistory := [] }

/-- An engine state at the start of a `CEA_BLOCK_CF` kickstart with an empty
block cache, so the next question must issue a block-mode oracle request. -/
def ceaStartState : EngineState :=
  { criteriaLevels := exampleConfig, utilities := [],
    initialStrategy := .ceaBlockCF, initialBlockSizeCea := 4,
    maxPythonOrthoCFQuestions := 3, initialQuestionsDone := 0,
    ceaBlockCache := [], ceaBlockCacheIdx := 0, orthoCounter := 0,
    questionCount := 0, rIdefixConsecutiveFailures := 0, sessionHistory := [] }

/-- A turn on which every oracle request fails and the user would answer
option A everywhere. -/
def failTurn : TurnInput :=
  { blockResult := none, singleResult := none, mainChoiceIsA := true, cfSwitched := false }

/-- A criteria table whose first criterion name contains an underscore. -/
def underscoreCriteria : Config := [("battery_life", ["low", "medium", "high"])]

/-- A long-term profile that stores a prior for `battery_life`/`medium`. -/
def underscoreProfileData : UtilTable := [("battery_life", [("medium", ⟨3/2, 1/4⟩)])]

/-- A criteria table with a single one-level criterion: no estimable
parameters. -/
def oneLevelCriteria : Config := [("Price", ["low"])]

/-! ### Theorems -/

/-- C4: on a valid 3×3 configuration the orthogonal fallback generator is
deterministic (it is a pure function of the configuration and the counter) and
cycles with period 9 — the pair at counter `k + 9` equals the pair at counter
`k` — and the 9 row-index pairs used by the 9 consecutive calls starting at
counter 0 together cover all 9 rows of the fixed `L9_PROFILES` array; the call
at counter 0 on the example configuration is the concrete pair built from rows
0 and 4. -/
theorem orthogonal_pair_period_nine_and_coverage :
    (∀ (cfg : Config) (k : Nat),
        getPythonOrthogonalPair cfg (k + 9) = getPythonOrthogonalPair cfg k) ∧
    (∀ r : Nat, r < 9 → r ∈ ORTHOGONAL_PAIRS_INDICES.flatMap (fun p => [p.1, p.2])) ∧
    getPythonOrthogonalPair exampleConfig 0 =
      some ([("Price", "low"), ("Speed", "slow"), ("Support", "basic")],
            [("Price", "mid"), ("Speed", "medium"), ("Support", "premium")]) := by
  refine ⟨?_, ?_, ?_⟩
  · intro cfg k
    unfold getPythonOrthogonalPair
    have h : (k + 9) % MAX_ORTHOGONAL_FALLBACK_TOTAL = k % MAX_ORTHOGONAL_FALLBACK_TOTAL := by
      have h9 : MAX_ORTHOGONAL_FALLBACK_TOTAL = 9 := rfl
      rw [h9]
      exact Nat.add_mod_right k 9
    rw [h]
  · decide
  · rfl

/-- Witness for C4 at concrete inputs: the call at counter 9 repeats the call
at counter 0, and row 7 is among the covered rows. -/
theorem orthogonal_pair_period_nine_witness :
    getPythonOrthogonalPair exampleConfig (0 + 9) = getPythonOrthogonalPair exampleConfig 0 ∧
    (7 : Nat) ∈ ORTHOGONAL_PAIRS_INDICES.flatMap (fun p => [p.1, p.2]) :=
  ⟨orthogonal_pair_period_nine_and_coverage.1 exampleConfig 0,
   orthogonal_pair_period_nine_and_coverage.2.1 7 (by decide)⟩

/-- C5: on a store with at least one belief, `_check_convergence` returns true
iff the arithmetic mean of variance over all known beliefs is strictly below
1.0; with all variances at 0.5 it returns true, and with a single variance of
5 among otherwise-low values (mean variance 26/15 ≥ 1) it returns false. -/
theorem convergence_iff_mean_variance_below_one :
    (∀ utils : UtilTable, allLevelData utils ≠ [] →
        (checkConvergence utils = true ↔ avgVariance utils < 1)) ∧
    checkConvergence allHalfVarTable = true ∧
    (checkConvergence spikeVarTable = false ∧ 1 ≤ avgVariance spikeVarTable) := by
  refine ⟨?_, ?_, ?_, ?_⟩
  · intro utils h
    unfold checkConvergence avgVariance
    rw [if_neg (by simpa [List.isEmpty_iff] using h)]
    constructor
    · intro hlt
      by_contra hge
      rw [if_neg hge] at hlt
      exact Bool.false_ne_true hlt
    · intro hlt
      rw [if_pos hlt]
  · norm_num [checkConvergence, allLevelData, allHalfVarTable]
  · norm_num [checkConvergence, allLevelData, spikeVarTable]
  · norm_num [avgVariance, allLevelData, spikeVarTable]

/-- Witness for C5: instantiating the equivalence at the all-variances-0.5
store, whose mean variance is indeed below 1. -/
theorem convergence_iff_witness :
    checkConvergence allHalfVarTable = true ↔ avgVariance allHalfVarTable < 1 :=
  convergence_iff_mean_variance_below_one.1 allHalfVarTable (by
    simp [allLevelData, allHalfVarTable])

/-- C9: when every criterion of the store maps to an empty level table,
`_check_convergence` returns false, so an empty-belief session never
terminates early by convergence. -/
theorem empty_store_never_converges :
    ∀ utils : UtilTable, (∀ p ∈ utils, p.2 = []) → checkConvergence utils = false := by
  intro utils h
  have hnil : allLevelData utils = [] := by
    induction utils with
    | nil => rfl
    | cons p rest ih =>
      have hp : p.2 = [] := h p (List.mem_cons_self p rest)
      have hr : allLevelData rest = [] := ih fun q hq => h q (List.mem_cons_of_mem p hq)
      have hsplit : allLevelData (p :: rest) = p.2.map (·.2) ++ allLevelData rest := by
        simp [allLevelData]
      rw [hsplit, hp, hr]
      rfl
  unfold checkConvergence
  rw [hnil]
  rfl

/-- Witness for C9 at a concrete store with three belief-less criteria. -/
theorem empty_store_never_converges_witness :
    checkConvergence emptyLevelStore = false :=
  empty_store_never_converges emptyLevelStore (by simp [emptyLevelStore])

/-- C6: for a targeted 3-level criterion, the counterfactual alternative-level
index follows the exact table 0→1, 1→2, 2→1; an out-of-range original index
falls back to the first index different from the original (which is 0); and a
distinct alternative always exists at 3 levels, so the computation never
reaches the skip case (`none`). -/
theorem counterfactual_index_transition :
    (cfImprovedCore 3 0 = some 1 ∧ cfImprovedCore 3 1 = some 2 ∧ cfImprovedCore 3 2 = some 1) ∧
    (∀ original : Int, (original < 0 ∨ 3 ≤ original) → cfImprovedCore 3 original = some 0) ∧
    (∀ original : Int, ∃ j : Int, cfImprovedCore 3 original = some j ∧ j ≠ original) := by
  have htable : cfImprovedCore 3 0 = some 1 ∧ cfImprovedCore 3 1 = some 2 ∧
      cfImprovedCore 3 2 = some 1 := by
    refine ⟨?_, ?_, ?_⟩ <;> decide
  have hout : ∀ original : Int, (original < 0 ∨ 3 ≤ original) →
      cfImprovedCore 3 original = some 0 := by
    intro original h
    have h0 : ¬ original = 0 := by omega
    have h1 : ¬ original = 1 := by omega
    have h2 : ¬ original = 2 := by omega
    have hfind : (List.range 3).find? (fun i => (i : Int) != original) = some 0 := by
      have hr : List.range 3 = [0, 1, 2] := rfl
      rw [hr]
      apply List.find?_cons_of_pos
      simp only [Nat.cast_zero, bne_iff_ne, ne_eq]
      omega
    simp only [cfImprovedCore, cfTransitionInit, if_neg h0, if_neg h1, if_neg h2, hfind]
    rw [if_pos (Or.inl (by norm_num))]
    rw [if_neg (by push_cast; omega)]
  refine ⟨htable, hout, ?_⟩
  intro original
  by_cases e0 : original = 0
  · exact ⟨1, by rw [e0]; exact htable.1, by omega⟩
  by_cases e1 : original = 1
  · exact ⟨2, by rw [e1]; exact htable.2.1, by omega⟩
  by_cases e2 : original = 2
  · exact ⟨1, by rw [e2]; exact htable.2.2, by omega⟩
  · exact ⟨0, hout original (by omega), by omega⟩

/-- Witness for C6: the out-of-range fallback at original index `-5` yields
the first index different from the original, namely 0. -/
theorem counterfactual_index_transition_witness :
    cfImprovedCore 3 (-5) = some 0 :=
  counterfactual_index_transition.2.1 (-5) (by norm_num)

/-- C8: the posterior reconciliation is skipped — the long-term profile
returned is exactly the input profile — whenever no estimable parameter
exists, or the inference collaborator is unavailable, or sampling fails. -/
theorem reconciler_skip_profile_unchanged :
    ∀ (avail : Bool) (outcome : Option (List (String × ℚ × ℚ)))
      (data : UtilTable) (hist : List (Profile × Profile × Nat)) (criteria : Config),
      (buildParamNames criteria = [] →
        runMcmcModelInBackground avail outcome data hist criteria = data) ∧
      (avail = false → runMcmcModelInBackground avail outcome data hist criteria = data) ∧
      (outcome = none → runMcmcModelInBackground avail outcome data hist criteria = data) := by
  intro avail outcome data hist criteria
  refine ⟨?_, ?_, ?_⟩
  · intro h
    unfold runMcmcModelInBackground
    rcases avail with _ | _
    · rfl
    · rw [if_neg (by simp), if_pos h]
  · intro h
    subst h
    rfl
  · intro h
    subst h
    unfold runMcmcModelInBackground
    rcases avail with _ | _
    · rfl
    · rw [if_neg (by simp)]
      split <;> rfl

/-- Witness for C8: with a single one-level criterion there is no estimable
parameter, and the profile survives a would-be reconciliation unchanged even
though the collaborator is available and sampling succeeded. -/
theorem reconciler_skip_profile_unchanged_witness :
    runMcmcModelInBackground true (some [("Price_mid", 1, 1)])
      underscoreProfileData [] oneLevelCriteria = underscoreProfileData :=
  (reconciler_skip_profile_unchanged true (some [("Price_mid", 1, 1)])
    underscoreProfileData [] oneLevelCriteria).1 rfl

/-- C10: for the criterion `battery_life` (name containing an underscore) and
level `medium`, the reconciler's parameter key `battery_life_medium` splits at
the first underscore into `(battery, life_medium)`, so the prior is seeded
from the default instead of the stored `battery_life`/`medium` entry, and the
posterior write-back creates a `battery` criterion entry that does not exist
in the session's criteria, leaving the original entry untouched. -/
theorem underscore_param_key_collision :
    ("battery_life" ++ "_" ++ "medium") ∈ buildParamNames underscoreCriteria ∧
    splitFirstUnderscore ("battery_life" ++ "_" ++ "medium") = ["battery", "life_medium"] ∧
    mcmcPriorForParam underscoreProfileData ("battery_life" ++ "_" ++ "medium") = (0, 10) ∧
    getLevelPrior underscoreProfileData "battery_life" "medium" = (3/2, 1/4) ∧
    updateProfileWithPosteriors underscoreProfileData [("battery_life_medium", 1, 1/2)] =
      [("battery_life", [("medium", ⟨3/2, 1/4⟩)]), ("battery", [("life_medium", ⟨1, 1/4⟩)])] ∧
    (∀ cl ∈ underscoreCriteria, cl.1 ≠ "battery") := by
  refine ⟨?_, ?_, ?_, ?_, ?_, ?_⟩
  · decide
  · rfl
  · rfl
  · rfl
  · have h : updateProfileWithPosteriors underscoreProfileData [("battery_life_medium", 1, 1/2)] =
        [("battery_life", [("medium", ⟨3/2, 1/4⟩)]),
         ("battery", [("life_medium", ⟨1, (1/2 : ℚ) * (1/2 : ℚ)⟩)])] := rfl
    rw [h]
    norm_num
  · decide

/-- Witness for C10: the criteria-table entry for `battery_life`, the only one
in the session, indeed does not carry the colliding name `battery`. -/
theorem underscore_param_key_collision_witness :
    ("battery_life", ["low", "medium", "high"]).1 ≠ "battery" :=
  underscore_param_key_collision.2.2.2.2.2
    ("battery_life", ["low", "medium", "high"]) (by decide)

theorem setLevel_variance_floor (tbl : List (String × Util)) (lvl : String) (f : Util → Util)
    (hf : ∀ u, (0.01 : ℚ) ≤ u.variance → (0.01 : ℚ) ≤ (f u).variance) :
    (∀ q ∈ tbl, (0.01 : ℚ) ≤ q.2.variance) →
    ∀ q ∈ setLevel tbl lvl f, (0.01 : ℚ) ≤ q.2.variance := by
  induction tbl with
  | nil => intro _ q hq; simp [setLevel] at hq
  | cons p rest ih =>
    intro h q hq
    simp only [setLevel] at hq
    rcases List.mem_cons.mp hq with hq | hq
    · subst hq
      by_cases hp : p.1 = lvl
      · simpa [hp] using hf p.2 (h p (List.mem_cons_self p rest))
      · simpa [hp] using h p (List.mem_cons_self p rest)
    · exact ih (fun r hr => h r (List.mem_cons_of_mem p hr)) q hq

theorem setUtil_variance_floor (utils : UtilTable) (crit lvl : String) (f : Util → Util)
    (hf : ∀ u, (0.01 : ℚ) ≤ u.variance → (0.01 : ℚ) ≤ (f u).variance)
    (h : varInvariant utils) : varInvariant (setUtil utils crit lvl f) := by
  induction utils with
  | nil => intro p hp; simp [setUtil] at hp
  | cons p rest ih =>
    intro p' hp'
    simp only [setUtil] at hp'
    rcases List.mem_cons.mp hp' with hp' | hp'
    · subst hp'
      by_cases hc : p.1 = crit
      · simpa [hc] using
          setLevel_variance_floor p.2 lvl f hf (h p (List.mem_cons_self p rest))
      · simpa [hc] using h p (List.mem_cons_self p rest)
    · exact ih (fun r hr => h r (List.mem_cons_of_mem p hr)) p' hp'

theorem applyChosenPass_variance_floor (chosen : Profile) :
    ∀ utils : UtilTable, varInvariant utils → varInvariant (applyChosenPass utils chosen) := by
  induction chosen with
  | nil => intro utils h; exact h
  | cons cl rest ih =>
    intro utils h
    obtain ⟨c, l⟩ := cl
    exact ih _ (setUtil_variance_floor utils c l chosenNudge (fun u _ => le_max_left _ _) h)

theorem rejectedStep_variance_floor (chosen : Profile) (utils : UtilTable) (c l : String)
    (h : varInvariant utils) : varInvariant (rejectedStep chosen utils c l) := by
  rcases hpl : profileLookup chosen c with _ | x
  · simpa [rejectedStep, hpl] using h
  · by_cases hx : x ≠ l
    · simpa [rejectedStep, hpl, hx] using
        setUtil_variance_floor utils c l rejectedNudge (fun u _ => le_max_left _ _) h
    · simpa [rejectedStep, hpl, hx] using h

theorem applyRejectedPass_variance_floor (unchosen : Profile) :
    ∀ (chosen : Profile) (utils : UtilTable),
      varInvariant utils → varInvariant (applyRejectedPass chosen utils unchosen) := by
  induction unchosen with
  | nil => intro chosen utils h; exact h
  | cons cl rest ih =>
    intro chosen utils h
    obtain ⟨c, l⟩ := cl
    exact ih chosen _ (rejectedStep_variance_floor chosen utils c l h)

theorem updateUtilitiesSimplified_variance_floor (utils : UtilTable) (chosen unchosen : Profile)
    (h : varInvariant utils) : varInvariant (updateUtilitiesSimplified utils chosen unchosen) :=
  applyRejectedPass_variance_floor unchosen chosen _
    (applyChosenPass_variance_floor chosen utils h)

theorem reclampAll_mean_bounds (utils : UtilTable) : meanInvariant (reclampAll utils) := by
  intro p hp q hq
  simp only [reclampAll, List.mem_map] at hp
  obtain ⟨p₀, hp₀, rfl⟩ := hp
  simp only [List.mem_map] at hq
  obtain ⟨q₀, hq₀, rfl⟩ := hq
  exact ⟨le_max_left _ _, max_le (by norm_num) (min_le_left _ _)⟩

theorem reclampAll_variance_floor (utils : UtilTable) : varInvariant (reclampAll utils) := by
  intro p hp q hq
  simp only [reclampAll, List.mem_map] at hp
  obtain ⟨p₀, hp₀, rfl⟩ := hp
  simp only [List.mem_map] at hq
  obtain ⟨q₀, hq₀, rfl⟩ := hq
  exact le_max_left _ _

theorem updateCF_variance_floor (utils : UtilTable) (crit lvlOrig lvlImp : String) (sw : Bool)
    (h : varInvariant utils) :
    varInvariant (updateUtilitiesFromCounterfactual utils crit lvlOrig lvlImp sw) := by
  unfold updateUtilitiesFromCounterfactual
  split
  · exact h
  · exact reclampAll_variance_floor _

theorem updateCF_mean_bounds (utils : UtilTable) (crit lvlOrig lvlImp : String) (sw : Bool)
    (h : meanInvariant utils) :
    meanInvariant (updateUtilitiesFromCounterfactual utils crit lvlOrig lvlImp sw) := by
  unfold updateUtilitiesFromCounterfactual
  split
  · exact h
  · exact reclampAll_mean_bounds _

/-- C1 counterexample: at the reachable belief state with a mean at the cap
`2.0` (the counterfactual update caps means at exactly `2.0`), the heuristic
main-choice update pushes the mean to `2.2`, outside `[-2, 2]` — the source's
`_update_utilities_simplified` applies no clamp to the mean. -/
theorem heuristic_update_mean_escapes_bounds :
    meanInvariant capMeanUtils ∧ varInvariant capMeanUtils ∧
    ¬ meanInvariant (updateUtilitiesSimplified capMeanUtils [("Price", "low")] [("Price", "mid")]) := by
  have h : updateUtilitiesSimplified capMeanUtils [("Price", "low")] [("Price", "mid")] =
      [("Price", [("low", ⟨2 + (0.2 : ℚ), max 0.01 ((1/2 : ℚ) * 0.9)⟩)])] := rfl
  refine ⟨?_, ?_, ?_⟩
  · intro p hp q hq
    simp only [capMeanUtils, List.mem_singleton] at hp
    subst hp
    simp only [List.mem_singleton] at hq
    subst hq
    norm_num
  · intro p hp q hq
    simp only [capMeanUtils, List.mem_singleton] at hp
    subst hp
    simp only [List.mem_singleton] at hq
    subst hq
    norm_num
  · intro hinv
    rw [h] at hinv
    have h2 := (hinv _ (List.mem_cons_self _ _) _ (List.mem_cons_self _ _)).2
    norm_num at h2

/-- C1 amended: variance stays `≥ 0.01` across both belief mutations (the
heuristic main-choice update and the counterfactual update), and the
counterfactual update re-clamps every mean to `[-2, 2]`; the heuristic
main-choice update, however, applies no clamp to means, so only the variance
half of the invariant survives it (the mean half fails, see the
counterexample). -/
theorem belief_mutation_invariants :
    ∀ (utils : UtilTable) (chosen unchosen : Profile) (crit lvlOrig lvlImp : String) (sw : Bool),
      (varInvariant utils → varInvariant (updateUtilitiesSimplified utils chosen unchosen)) ∧
      (varInvariant utils →
        varInvariant (updateUtilitiesFromCounterfactual utils crit lvlOrig lvlImp sw)) ∧
      (meanInvariant utils →
        meanInvariant (updateUtilitiesFromCounterfactual utils crit lvlOrig lvlImp sw)) :=
  fun utils chosen unchosen crit lvlOrig lvlImp sw =>
    ⟨updateUtilitiesSimplified_variance_floor utils chosen unchosen,
     updateCF_variance_floor utils crit lvlOrig lvlImp sw,
     updateCF_mean_bounds utils crit lvlOrig lvlImp sw⟩

/-- Witness for C1 (amended): the preserved invariants instantiated on a
diffuse two-belief store. -/
theorem belief_mutation_invariants_witness :
    varInvariant (updateUtilitiesSimplified diffuseUtils [("Price", "low")] [("Price", "mid")]) ∧
    meanInvariant (updateUtilitiesFromCounterfactual diffuseUtils "Price" "low" "mid" true) :=
  ⟨(belief_mutation_invariants diffuseUtils [("Price", "low")] [("Price", "mid")]
      "Price" "low" "mid" true).1 (by
        intro p hp q hq
        simp only [diffuseUtils, List.mem_singleton] at hp
        subst hp
        rcases List.mem_cons.mp hq with hq | hq
        · subst hq; norm_num
        · simp only [List.mem_singleton] at hq; subst hq; norm_num),
   (belief_mutation_invariants diffuseUtils [("Price", "low")] [("Price", "mid")]
      "Price" "low" "mid" true).2.2 (by
        intro p hp q hq
        simp only [diffuseUtils, List.mem_singleton] at hp
        subst hp
        rcases List.mem_cons.mp hq with hq | hq
        · subst hq; norm_num
        · simp only [List.mem_singleton] at hq; subst hq; norm_num)⟩

theorem lookupLevel_setLevel (tbl : List (String × Util)) (l l' : String) (f : Util → Util) :
    lookupLevel (setLevel tbl l f) l' =
      if l = l' then (lookupLevel tbl l').map f else lookupLevel tbl l' := by
  induction tbl with
  | nil => by_cases h : l = l' <;> simp [setLevel, lookupLevel, h]
  | cons q rest ih =>
    obtain ⟨lq, uq⟩ := q
    show lookupLevel ((if lq = l then (lq, f uq) else (lq, uq)) :: setLevel rest l f) l' = _
    by_cases h0 : lq = l
    · rw [if_pos h0]
      by_cases h2 : l = l'
      · have h1 : lq = l' := h0.trans h2
        show (if lq = l' then some (f uq) else lookupLevel (setLevel rest l f) l') = _
        rw [if_pos h1, if_pos h2]
        show _ = (if lq = l' then some uq else lookupLevel rest l').map f
        rw [if_pos h1]
        rfl
      · have h1 : ¬ lq = l' := fun e => h2 (h0.symm.trans e)
        show (if lq = l' then some (f uq) else lookupLevel (setLevel rest l f) l') = _
        rw [if_neg h1, ih, if_neg h2, if_neg h2]
        show _ = (if lq = l' then some uq else lookupLevel rest l')
        rw [if_neg h1]
    · rw [if_neg h0]
      show (if lq = l' then some uq else lookupLevel (setLevel rest l f) l') = _
      by_cases h1 : lq = l'
      · have h2 : ¬ l = l' := fun e => h0 (h1.trans e.symm)
        rw [if_pos h1, if_neg h2]
        show _ = (if lq = l' then some uq else lookupLevel rest l')
        rw [if_pos h1]
      · rw [if_neg h1, ih]
        by_cases h2 : l = l'
        · rw [if_pos h2, if_pos h2]
          show _ = (if lq = l' then some uq else lookupLevel rest l').map f
          rw [if_neg h1]
        · rw [if_neg h2, if_neg h2]
          show _ = (if lq = l' then some uq else lookupLevel rest l')
          rw [if_neg h1]

theorem lookupUtil_setUtil (utils : UtilTable) (crit lvl crit' lvl' : String) (f : Util → Util) :
    lookupUtil (setUtil utils crit lvl f) crit' lvl' =
      if crit = crit' ∧ lvl = lvl' then (lookupUtil utils crit' lvl').map f
      else lookupUtil utils crit' lvl' := by
  induction utils with
  | nil => by_cases h : crit = crit' ∧ lvl = lvl' <;> simp [setUtil, lookupUtil, h]
  | cons p rest ih =>
    obtain ⟨cp, tbl⟩ := p
    show lookupUtil ((if cp = crit then (cp, setLevel tbl lvl f) else (cp, tbl)) ::
      setUtil rest crit lvl f) crit' lvl' = _
    by_cases h0 : cp = crit
    · rw [if_pos h0]
      by_cases h2 : crit = crit'
      · have h1 : cp = crit' := h0.trans h2
        show (if cp = crit' then lookupLevel (setLevel tbl lvl f) lvl'
            else lookupUtil (setUtil rest crit lvl f) crit' lvl') = _
        rw [if_pos h1, lookupLevel_setLevel]
        show _ = if crit = crit' ∧ lvl = lvl' then
            (if cp = crit' then lookupLevel tbl lvl' else lookupUtil rest crit' lvl').map f
          else if cp = crit' then lookupLevel tbl lvl' else lookupUtil rest crit' lvl'
        rw [if_pos h1]
        by_cases h3 : lvl = lvl'
        · rw [if_pos h3, if_pos ⟨h2, h3⟩]
        · rw [if_neg h3, if_neg (fun hand => h3 hand.2)]
      · have h1 : ¬ cp = crit' := fun e => h2 (h0.symm.trans e)
        show (if cp = crit' then lookupLevel (setLevel tbl lvl f) lvl'
            else lookupUtil (setUtil rest crit lvl f) crit' lvl') = _
        rw [if_neg h1, ih, if_neg (fun hand => h2 hand.1),
          if_neg (fun hand => h2 hand.1)]
        show _ = if cp = crit' then lookupLevel tbl lvl' else lookupUtil rest crit' lvl'
        rw [if_neg h1]
    · rw [if_neg h0]
      show (if cp = crit' then lookupLevel tbl lvl'
          else lookupUtil (setUtil rest crit lvl f) crit' lvl') = _
      by_cases h1 : cp = crit'
      · have h2 : ¬(crit = crit' ∧ lvl = lvl') := fun hand => h0 (h1.trans hand.1.symm)
        rw [if_pos h1, if_neg h2]
        show _ = if cp = crit' then lookupLevel tbl lvl' else lookupUtil rest crit' lvl'
        rw [if_pos h1]
      · rw [if_neg h1, ih]
        by_cases h2 : crit = crit' ∧ lvl = lvl'
        · rw [if_pos h2, if_pos h2]
          show _ = (if cp = crit' then lookupLevel tbl lvl' else lookupUtil rest crit' lvl').map f
          rw [if_neg h1]
        · rw [if_neg h2, if_neg h2]
          show _ = if cp = crit' then lookupLevel tbl lvl' else lookupUtil rest crit' lvl'
          rw [if_neg h1]

theorem lookupUtil_applyChosenPass_notmem (chosen : Profile) :
    ∀ (utils : UtilTable) (crit lvl : String), crit ∉ chosen.map Prod.fst →
      lookupUtil (applyChosenPass utils chosen) crit lvl = lookupUtil utils crit lvl := by
  induction chosen with
  | nil => intro utils crit lvl _; rfl
  | cons cl rest ih =>
    intro utils crit lvl h
    obtain ⟨c, l⟩ := cl
    have hc : ¬(c = crit) := fun e => h (by simp [e])
    have hrest : crit ∉ rest.map Prod.fst := fun hr => h (by simp [hr])
    show lookupUtil (applyChosenPass (setUtil utils c l chosenNudge) rest) crit lvl = _
    rw [ih _ _ _ hrest, lookupUtil_setUtil]
    rw [if_neg (fun hand => hc hand.1)]

theorem lookupUtil_applyChosenPass_found (chosen : Profile) :
    ∀ (utils : UtilTable) (crit lvl : String),
      (chosen.map Prod.fst).Nodup →
      profileLookup chosen crit = some lvl →
      lookupUtil (applyChosenPass utils chosen) crit lvl =
        (lookupUtil utils crit lvl).map chosenNudge := by
  induction chosen with
  | nil => intro utils crit lvl _ h; cases h
  | cons cl rest ih =>
    intro utils crit lvl hnd hc
    obtain ⟨c, l⟩ := cl
    by_cases hcc : c = crit
    · have hl : lvl = l := by
        have hhead : profileLookup ((c, l) :: rest) crit = some l := by
          simp [profileLookup, hcc]
        rw [hhead] at hc
        exact (Option.some.inj hc).symm
      subst hl
      subst hcc
      have hnd' : c ∉ rest.map Prod.fst ∧ (rest.map Prod.fst).Nodup := by
        simpa [List.nodup_cons] using hnd
      show lookupUtil (applyChosenPass (setUtil utils c lvl chosenNudge) rest) c lvl = _
      rw [lookupUtil_applyChosenPass_notmem rest _ _ _ hnd'.1, lookupUtil_setUtil]
      rw [if_pos ⟨rfl, rfl⟩]
    · have hc' : profileLookup rest crit = some lvl := by
        simpa [profileLookup, hcc] using hc
      have hnd' : (rest.map Prod.fst).Nodup := by
        have := by simpa [List.nodup_cons] using hnd
        exact this.2
      show lookupUtil (applyChosenPass (setUtil utils c l chosenNudge) rest) crit lvl = _
      rw [ih _ _ _ hnd' hc', lookupUtil_setUtil]
      rw [if_neg (fun hand => hcc hand.1)]

theorem lookupUtil_applyRejectedPass_shared (unchosen : Profile) :
    ∀ (chosen : Profile) (utils : UtilTable) (crit lvl : String),
      profileLookup chosen crit = some lvl →
      lookupUtil (applyRejectedPass chosen utils unchosen) crit lvl =
        lookupUtil utils crit lvl := by
  induction unchosen with
  | nil => intro chosen utils crit lvl _; rfl
  | cons cl rest ih =>
    intro chosen utils crit lvl hc
    obtain ⟨c, l⟩ := cl
    show lookupUtil (applyRejectedPass chosen (rejectedStep chosen utils c l) rest) crit lvl = _
    rw [ih chosen _ crit lvl hc]
    unfold rejectedStep
    rcases hpl : profileLookup chosen c with _ | x
    · simp only [hpl]
    · simp only [hpl]
      by_cases hx : x ≠ l
      · rw [if_pos hx, lookupUtil_setUtil]
        rw [if_neg ?_]
        rintro ⟨hcc, hll⟩
        subst hcc
        subst hll
        rw [hpl] at hc
        exact hx (Option.some.inj hc)
      · rw [if_neg hx]

/-- C2 counterexample: when the chosen and the rejected profile carry the same
level on a criterion, the source's chosen-profile loop still updates that
level (`mean += 0.2`, `variance *= 0.9`), so its belief does not stay
unchanged. -/
theorem shared_level_belief_changes :
    profileLookup sharedProfile "Price" = some "low" ∧
    lookupUtil (updateUtilitiesSimplified sharedLevelUtils sharedProfile sharedProfile)
        "Price" "low" ≠ lookupUtil sharedLevelUtils "Price" "low" := by
  refine ⟨rfl, ?_⟩
  have h1 : lookupUtil (updateUtilitiesSimplified sharedLevelUtils sharedProfile sharedProfile)
      "Price" "low" = some ⟨0 + (0.2 : ℚ), max 0.01 ((1 : ℚ) * 0.9)⟩ := rfl
  have h2 : lookupUtil sharedLevelUtils "Price" "low" = some ⟨0, 1⟩ := rfl
  rw [h1, h2]
  intro he
  have hm : (0 + (0.2 : ℚ)) = 0 := congrArg Util.mean (Option.some.inj he)
  norm_num at hm

/-- C2 amended: on a criterion where both profiles carry the same level, the
rejected-profile pass indeed applies no update (its `chosen.get(crit) != lvl`
guard fails), but the chosen-profile pass still applies its
`chosenNudge` — the resulting belief is exactly the chosen-side update of the
old one, not the old one itself. -/
theorem shared_level_gets_chosen_update :
    ∀ (utils : UtilTable) (chosen unchosen : Profile) (crit lvl : String),
      (chosen.map Prod.fst).Nodup →
      profileLookup chosen crit = some lvl →
      profileLookup unchosen crit = some lvl →
      lookupUtil (updateUtilitiesSimplified utils chosen unchosen) crit lvl =
        (lookupUtil utils crit lvl).map chosenNudge := by
  intro utils chosen unchosen crit lvl hnd hc _
  unfold updateUtilitiesSimplified
  rw [lookupUtil_applyRejectedPass_shared unchosen chosen _ crit lvl hc]
  exact lookupUtil_applyChosenPass_found chosen utils crit lvl hnd hc

/-- Witness for C2 (amended), on the concrete shared-level instance. -/
theorem shared_level_gets_chosen_update_witness :
    lookupUtil (updateUtilitiesSimplified sharedLevelUtils sharedProfile sharedProfile)
        "Price" "low" = (lookupUtil sharedLevelUtils "Price" "low").map chosenNudge :=
  shared_level_gets_chosen_update sharedLevelUtils sharedProfile sharedProfile "Price" "low"
    (by simp [sharedProfile]) rfl rfl

theorem currentPhase_ne_cea (s : EngineState) (h : s.initialStrategy ≠ .ceaBlockCF) :
    currentPhase s ≠ .ceaBlockCF := by
  unfold currentPhase
  split
  · simp
  · split
    · simp
    · exact h

theorem finishTurn_proj (br : BranchResult) (i : TurnInput) :
    (finishTurn br i).1.initialStrategy = br.state.initialStrategy ∧
    (finishTurn br i).2.issuedBlockRequest = br.issuedBlockRequest ∧
    (finishTurn br i).2.warned = br.warned := by
  unfold finishTurn
  rcases hpa : br.profileA with _ | pa <;> rcases hpb : br.profileB with _ | pb <;> simp

theorem stepOrthoBranch_proj (s0 : EngineState) :
    (stepOrthoBranch s0).state.initialStrategy = s0.initialStrategy ∧
    (stepOrthoBranch s0).issuedBlockRequest = false := by
  unfold stepOrthoBranch
  dsimp only
  refine ⟨?_, rfl⟩
  split <;> rfl

theorem stepModfedBranch_proj (s0 : EngineState) (phase : Strategy) (i : TurnInput) :
    (stepModfedBranch s0 phase i).state.initialStrategy = s0.initialStrategy ∧
    (stepModfedBranch s0 phase i).issuedBlockRequest = false := by
  unfold stepModfedBranch
  rcases hsr : i.singleResult with _ | ⟨pa, pb⟩ <;> simp only [hsr] <;> (try dsimp only)
  · refine ⟨?_, trivial⟩
    split <;> (try split) <;> (try split) <;> rfl
  · refine ⟨?_, trivial⟩
    split <;> (try split) <;> rfl

theorem sessionStep_preserves_strategy (s : EngineState) (i : TurnInput)
    (h : s.initialStrategy ≠ .ceaBlockCF) :
    (sessionStep s i).1.initialStrategy = s.initialStrategy ∧
    (sessionStep s i).2.issuedBlockRequest = false := by
  have hp : currentPhase { s with questionCount := s.questionCount + 1 } ≠ .ceaBlockCF :=
    currentPhase_ne_cea _ h
  unfold sessionStep
  rcases hphase : currentPhase { s with questionCount := s.questionCount + 1 } with _ | _ | _ | _
  · simp only [hphase]
    exact ⟨(finishTurn_proj _ _).1.trans (stepOrthoBranch_proj _).1,
      (finishTurn_proj _ _).2.1.trans (stepOrthoBranch_proj _).2⟩
  · exact absurd hphase hp
  · simp only [hphase]
    exact ⟨(finishTurn_proj _ _).1.trans (stepModfedBranch_proj _ _ _).1,
      (finishTurn_proj _ _).2.1.trans (stepModfedBranch_proj _ _ _).2⟩
  · simp only [hphase]
    exact ⟨(finishTurn_proj _ _).1.trans (stepModfedBranch_proj _ _ _).1,
      (finishTurn_proj _ _).2.1.trans (stepModfedBranch_proj _ _ _).2⟩

theorem runSession_no_block (inputs : List TurnInput) :
    ∀ s : EngineState, s.initialStrategy ≠ .ceaBlockCF →
      blockRequestCount (runSession s inputs).2 = 0 := by
  induction inputs with
  | nil => intro s _; rfl
  | cons i rest ih =>
    intro s h
    have hstep := sessionStep_preserves_strategy s i h
    have h' : (sessionStep s i).1.initialStrategy ≠ .ceaBlockCF := by
      rw [hstep.1]; exact h
    unfold runSession
    dsimp only
    split
    · simp [blockRequestCount, hstep.2]
    · have hrec := ih (sessionStep s i).1 h'
      simp only [blockRequestCount, List.filter] at hrec ⊢
      rw [hstep.2]
      exact hrec

theorem ceaFailurePath_strategy (s0 : EngineState) :
    (ceaFailurePath s0).initialStrategy = .pythonOrthogonalCF ∧
    (ceaFailurePath s0).ceaBlockCache = s0.ceaBlockCache ∧
    (ceaFailurePath s0).ceaBlockCacheIdx = s0.ceaBlockCacheIdx := by
  unfold ceaFailurePath
  dsimp only
  refine ⟨rfl, ?_, ?_⟩ <;> split <;> rfl

theorem stepCeaBranch_failure_downgrade (s0 : EngineState) (i : TurnInput)
    (hcache : (s0.ceaBlockCache.isEmpty || s0.ceaBlockCache.length ≤ s0.ceaBlockCacheIdx) = true)
    (hfail : i.blockResult = none ∨ i.blockResult = some []) :
    (stepCeaBranch s0 i).state.initialStrategy = .pythonOrthogonalCF ∧
    (stepCeaBranch s0 i).issuedBlockRequest = true := by
  have hserve : ∀ s1 : EngineState,
      s1.ceaBlockCache = s0.ceaBlockCache → s1.ceaBlockCacheIdx = s0.ceaBlockCacheIdx →
      ¬(¬s1.ceaBlockCache.isEmpty ∧ s1.ceaBlockCacheIdx < s1.ceaBlockCache.length) := by
    intro s1 hc hi hand
    rw [hc, hi] at hand
    rcases Bool.or_eq_true _ _ |>.mp hcache with he | hle
    · exact hand.1 he
    · exact absurd hand.2 (by simpa using hle)
  unfold stepCeaBranch
  dsimp only
  rw [if_pos hcache]
  rcases hfail with hf | hf <;> rw [hf] <;> (try dsimp only)
  · rw [if_neg (hserve _ (ceaFailurePath_strategy s0).2.1 (ceaFailurePath_strategy s0).2.2)]
    refine ⟨?_, hcache⟩
    dsimp only
    split <;> simp [ceaFailurePath_strategy s0 |>.1]
  · simp only [List.isEmpty_nil, eq_self_iff_true, if_true]
    rw [if_neg (hserve _ (ceaFailurePath_strategy s0).2.1 (ceaFailurePath_strategy s0).2.2)]
    refine ⟨?_, hcache⟩
    dsimp only
    split <;> simp [ceaFailurePath_strategy s0 |>.1]

/-- C7: once a block-mode oracle fetch fails during the block kickstart, the
engine permanently downgrades: the step sets `initial_strategy` to
`PYTHON_ORTHOGONAL_CF`, that field is the only gate to the block branch, no
step ever sets it back to `CEA_BLOCK_CF`, and hence no later turn of the
session — whatever the environment does — issues another block-mode oracle
request. -/
theorem block_failure_permanent_downgrade :
    ∀ (s : EngineState) (i : TurnInput) (inputs : List TurnInput),
      (s.initialStrategy ≠ .ceaBlockCF →
        blockRequestCount (runSession s inputs).2 = 0) ∧
      (currentPhase s = .ceaBlockCF →
        (s.ceaBlockCache.isEmpty || s.ceaBlockCache.length ≤ s.ceaBlockCacheIdx) = true →
        (i.blockResult = none ∨ i.blockResult = some []) →
        (sessionStep s i).1.initialStrategy = .pythonOrthogonalCF ∧
        blockRequestCount (runSession (sessionStep s i).1 inputs).2 = 0) := by
  intro s i inputs
  constructor
  · exact runSession_no_block inputs s
  · intro hphase hcache hfail
    have hphase' : currentPhase { s with questionCount := s.questionCount + 1 } = .ceaBlockCF :=
      hphase
    have hdown : (sessionStep s i).1.initialStrategy = .pythonOrthogonalCF := by
      unfold sessionStep
      simp only [hphase']
      exact (finishTurn_proj _ _).1.trans
        (stepCeaBranch_failure_downgrade { s with questionCount := s.questionCount + 1 } i
          hcache hfail).1
    refine ⟨hdown, runSession_no_block inputs _ ?_⟩
    rw [hdown]
    simp

/-- Witness for C7: a concrete block-kickstart state with an empty cache and a
failing oracle is downgraded in one step, and a following turn issues no
block request. -/
theorem block_failure_permanent_downgrade_witness :
    (sessionStep ceaStartState failTurn).1.initialStrategy = .pythonOrthogonalCF ∧
    blockRequestCount (runSession (sessionStep ceaStartState failTurn).1 [failTurn]).2 = 0 :=
  (block_failure_permanent_downgrade ceaStartState failTurn [failTurn]).2
    rfl rfl (Or.inl rfl)

/-- C3 counterexample: with the adaptive-phase oracle failing on 4 consecutive
turns (from a failure counter of 0, so the threshold of 3 is crossed exactly
once), the escalation warning is emitted twice — on the 3rd and on the 4th
failure — because the source prints it whenever
`r_idefix_consecutive_failures >= 3`, not at most once per crossing. -/
theorem adaptive_warning_every_failure :
    warnCount (runSession adaptState [failTurn, failTurn, failTurn, failTurn]).2 = 2 ∧
    (runSession adaptState
        [failTurn, failTurn, failTurn, failTurn]).1.rIdefixConsecutiveFailures = 4 ∧
    ¬ warnCount (runSession adaptState [failTurn, failTurn, failTurn, failTurn]).2 ≤ 1 := by
  norm_num +decide [sessionStep, currentPhase, stepModfedBranch, finishTurn, adaptState, failTurn,
    getPythonOrthogonalPair, buildOrthogonalProfiles, ORTHOGONAL_PAIRS_INDICES, L9_PROFILES,
    MAX_ORTHOGONAL_FALLBACK_TOTAL,
    updateUtilitiesSimplified, applyChosenPass, applyRejectedPass, rejectedStep,
    setUtil, setLevel, profileLookup, chosenNudge, rejectedNudge, checkConvergence,
    allLevelData, tenPriorUtils, exampleConfig, max_def, runSession, warnCount]

/-- C3 amended: in the adaptive phase, an oracle failure falls back to an
orthogonal question without aborting (the step can only halt through the
convergence check), increments the consecutive-failure counter, and emits the
escalation warning exactly when the incremented counter is `≥ 3` — i.e. on the
3rd failure and on every consecutive failure thereafter, not at most once per
threshold crossing; any oracle success resets the counter to 0 and warns
nothing. -/
theorem adaptive_failure_fallback :
    ∀ (s : EngineState) (i : TurnInput),
      currentPhase s = .modfedAdaptive →
      (∀ pr : Profile × Profile, i.singleResult = none →
        getPythonOrthogonalPair s.criteriaLevels s.orthoCounter = some pr →
        (sessionStep s i).2.usedOrthoFallbackAdaptive = true ∧
        (sessionStep s i).2.haltedNoQuestion = false ∧
        (sessionStep s i).1.rIdefixConsecutiveFailures = s.rIdefixConsecutiveFailures + 1 ∧
        ((sessionStep s i).2.warned = true ↔ 3 ≤ s.rIdefixConsecutiveFailures + 1) ∧
        ((sessionStep s i).2.halted = true →
          checkConvergence (sessionStep s i).1.utilities = true)) ∧
      (∀ pa pb : Profile, i.singleResult = some (some pa, some pb) →
        (sessionStep s i).1.rIdefixConsecutiveFailures = 0 ∧
        (sessionStep s i).2.warned = false) := by
  intro s i hphase
  have hphase' : currentPhase { s with questionCount := s.questionCount + 1 } = .modfedAdaptive :=
    hphase
  constructor
  · intro pr hsr hortho
    unfold sessionStep stepModfedBranch finishTurn
    simp [hphase', hsr, hortho, apply_ite EngineState.criteriaLevels,
      apply_ite EngineState.orthoCounter, apply_ite EngineState.rIdefixConsecutiveFailures,
      apply_ite EngineState.utilities, ite_self, decide_eq_true_eq]
  · intro pa pb hsr
    unfold sessionStep stepModfedBranch finishTurn
    simp [hphase', hsr, apply_ite EngineState.rIdefixConsecutiveFailures, ite_self]

/-- Witness for C3 (amended): the first adaptive-phase failure at the concrete
post-kickstart state falls back to the orthogonal pair of counter 3 and does
not reach the warning threshold. -/
theorem adaptive_failure_fallback_witness :
    (sessionStep adaptState failTurn).2.usedOrthoFallbackAdaptive = true ∧
    (sessionStep adaptState failTurn).2.haltedNoQuestion = false ∧
    (sessionStep adaptState failTurn).1.rIdefixConsecutiveFailures = 1 := by
  have h := ((adaptive_failure_fallback adaptState failTurn rfl).1
    ([("Price", "mid"), ("Speed", "slow"), ("Support", "standard")],
     [("Price", "high"), ("Speed", "fast"), ("Support", "standard")]) rfl rfl)
  exact ⟨h.1, h.2.1, h.2.2.1⟩

end DecisiveApp
